import Mathlib

/-!
Verification of the VR buzz-wire game core (`PythonServer/buzz_wire_game.py`).

Modelling conventions:
* 3D coordinates and wall-clock times are exact rationals (`ℚ`); the Python
  decimal literals of the track are carried exactly.
* The source computes Euclidean distances with `math.sqrt` and only ever
  (a) compares them with a threshold, (b) takes minima of them, and
  (c) reports them.  Since `Real.sqrt` is noncomputable and the square root
  of a rational is irrational in general, every distance in this development
  is represented by its *square* (a rational).  `sqrt` is strictly monotone
  on nonnegative reals, so `min` commutes with the representation and a
  comparison `sqrt d < t` is represented faithfully by `0 < t ∧ d < t ^ 2`
  (for `d ≥ 0`: if `t ≤ 0` the comparison is false since `sqrt d ≥ 0`).
  The display-level `round(·, 4)` applied to the square root in `get_state`
  is not representable on squares and is omitted: the snapshot carries the
  exact squared distance.
* Python's `float('inf')` (the seed of the min-distance folds) is modelled
  by `none : Option ℚ`; `some d` carries a finite squared distance `d`.
* A single `now : ℚ` argument of `update` models the (at most
  microseconds-apart) `time.time()` calls inside one `update` invocation.
* The calling convention of `update` is a typed list of 3D points, i.e. the
  source after its single-point-vs-multi-point normalisation (lines 130-132);
  the empty list passes through that normalisation unchanged, so it is part
  of the model (claim C10).
-/

namespace BuzzWire

/-- A 3D point / vector with exact rational coordinates. -/
structure Vec3 where
  x : ℚ
  y : ℚ
  z : ℚ
deriving DecidableEq

/-- Componentwise vector subtraction. -/
def vsub (a b : Vec3) : Vec3 := ⟨a.x - b.x, a.y - b.y, a.z - b.z⟩

/-- Componentwise vector addition. -/
def vadd (a b : Vec3) : Vec3 := ⟨a.x + b.x, a.y + b.y, a.z + b.z⟩

/-- Scalar multiple of a vector. -/
def smul (t : ℚ) (v : Vec3) : Vec3 := ⟨t * v.x, t * v.y, t * v.z⟩

/-- Dot product of two vectors. -/
def vdot (u v : Vec3) : ℚ := u.x * v.x + u.y * v.y + u.z * v.z

/-- The origin `[0, 0, 0]`, the fallback primary point of `update`. -/
def origin : Vec3 := ⟨0, 0, 0⟩

/-- Squared point-to-segment distance, translated line by line from
`BuzzWireGame._point_to_segment_distance` (source lines 219-257); the final
`math.sqrt` is dropped, so this returns the square of the source's value.
The degeneracy threshold `1e-10` is the exact rational `1 / 10^10`. -/
def point_to_segment_distance_sq (point seg_start seg_end : Vec3) : ℚ :=
  let vx := seg_end.x - seg_start.x
  let vy := seg_end.y - seg_start.y
  let vz := seg_end.z - seg_start.z
  let wx := point.x - seg_start.x
  let wy := point.y - seg_start.y
  let wz := point.z - seg_start.z
  let v_dot_v := vx * vx + vy * vy + vz * vz
  if v_dot_v < 1 / 10 ^ 10 then
    wx * wx + wy * wy + wz * wz
  else
    let w_dot_v := wx * vx + wy * vy + wz * vz
    let t := max 0 (min 1 (w_dot_v / v_dot_v))
    let closest_x := seg_start.x + t * vx
    let closest_y := seg_start.y + t * vy
    let closest_z := seg_start.z + t * vz
    let dx := point.x - closest_x
    let dy := point.y - closest_y
    let dz := point.z - closest_z
    dx * dx + dy * dy + dz * dz

/-- Squared point-to-segment distance as §4 of the specification words it:
`v = B − A`, `w = P − A`; if `v·v` is below `1e-10` the result is `|w|`,
otherwise `t = clamp(w·v / v·v, 0, 1)`, closest point `A + t·v`, distance
`|P − closest|` (squared here, like `point_to_segment_distance_sq`). -/
def spec_segment_distance_sq (p a b : Vec3) : ℚ :=
  let v := vsub b a
  let w := vsub p a
  if vdot v v < 1 / 10 ^ 10 then
    vdot w w
  else
    let t := max 0 (min 1 (vdot w v / vdot v v))
    let closest := vadd a (smul t v)
    vdot (vsub p closest) (vsub p closest)

/-- The consecutive-point segments of a polyline: the pairs
`(track[i], track[i+1])` visited by the loop of
`_calculate_min_distance_to_track` (source lines 189-194). -/
def segs : List Vec3 → List (Vec3 × Vec3)
  | a :: b :: rest => (a, b) :: segs (b :: rest)
  | _ => []

/-- Minimum of a list of rationals, `none` playing the role of the
`float('inf')` seed of the source's min folds. -/
def listMin : List ℚ → Option ℚ
  | [] => none
  | d :: rest =>
    match listMin rest with
    | none => some d
    | some m => some (min d m)

/-- Minimum of two extended values (`none` = `+∞`). -/
def optMin : Option ℚ → Option ℚ → Option ℚ
  | none, b => b
  | some a, none => some a
  | some a, some b => some (min a b)

/-- `BuzzWireGame._calculate_min_distance_to_track` (source lines 186-196):
minimum over all consecutive-point segments of the squared point-to-segment
distance; `none` when the track has fewer than two points. -/
def calculate_min_distance_to_track (track : List Vec3) (p : Vec3) : Option ℚ :=
  listMin ((segs track).map fun ab => point_to_segment_distance_sq p ab.1 ab.2)

/-- The min fold of `update` over the input points (source lines 151-154):
overall minimum squared distance of any input point to the track, seeded
with `float('inf')` (`none`). -/
def min_distance_over_points (track : List Vec3) : List Vec3 → Option ℚ
  | [] => none
  | p :: rest =>
    optMin (calculate_min_distance_to_track track p)
      (min_distance_over_points track rest)

/-- All squared point-to-segment distances contributing to
`min_distance_over_points`, as one flat list (proof device for the min
characterisation). -/
def allSegDists (track : List Vec3) : List Vec3 → List ℚ
  | [] => []
  | p :: rest =>
    ((segs track).map fun ab => point_to_segment_distance_sq p ab.1 ab.2)
      ++ allSegDists track rest

/-- The fixed track of `BuzzWireGame._define_track` (source lines 53-81),
with the decimal literals carried exactly. -/
def define_track : List Vec3 :=
  [⟨-(1/2), 1, 0⟩,
   ⟨-(3/10), 11/10, 0⟩,
   ⟨-(1/10), 6/5, 1/20⟩,
   ⟨0, 23/20, 1/10⟩,
   ⟨1/10, 5/4, 1/20⟩,
   ⟨1/5, 11/10, 0⟩,
   ⟨3/10, 23/20, -(1/10)⟩,
   ⟨2/5, 6/5, -(3/20)⟩,
   ⟨1/2, 13/10, -(1/10)⟩,
   ⟨11/20, 27/20, 0⟩,
   ⟨1/2, 7/5, 1/10⟩,
   ⟨3/5, 13/10, 1/10⟩,
   ⟨7/10, 6/5, 1/20⟩,
   ⟨4/5, 11/10, 0⟩]

/-- `self.start_zone = self.track_points[0]` (source line 34). -/
def start_zone : Vec3 := define_track.headD origin

/-- `self.end_zone = self.track_points[-1]` (source line 35). -/
def end_zone : Vec3 := define_track.getLastD origin

/-- `self.zone_radius = 0.1` (source line 36). -/
def zone_radius : ℚ := 1 / 10

/-- `BuzzWireGame._is_in_zone` (source lines 259-265): the source compares
`sqrt(dx²+dy²+dz²) < zone_radius`; on squares, with `zone_radius = 1/10 > 0`
and the left side a genuine square, this is `distSq < zone_radius ^ 2`. -/
def is_in_zone (position zone_center : Vec3) : Bool :=
  let dx := position.x - zone_center.x
  let dy := position.y - zone_center.y
  let dz := position.z - zone_center.z
  decide (dx * dx + dy * dy + dz * dz < zone_radius ^ 2)

/-- The source's `min_distance < self.collision_threshold` (line 159), where
`min_distance` is a true square root (or `inf`, modelled by `none`): for a
squared distance `d ≥ 0`, `sqrt d < thr` holds iff `0 < thr ∧ d < thr ^ 2`,
and `inf < thr` is false. -/
def min_lt_threshold (md : Option ℚ) (thr : ℚ) : Bool :=
  match md with
  | none => false
  | some d => decide (0 < thr ∧ d < thr ^ 2)

/-- The immutable per-game configuration: `collision_threshold`, set at
construction (source lines 19-27).  The track, zones and zone radius are
the fixed values above. -/
structure Game where
  collision_threshold : ℚ
deriving DecidableEq

/-- The mutable session fields set by `BuzzWireGame.reset`
(source lines 85-95).  `start_time : Option ℚ` models the
`Optional[float]`; times are rationals. -/
structure GameState where
  game_started : Bool
  game_completed : Bool
  timing_started : Bool
  start_time : Option ℚ
  elapsed_time : ℚ
  collision_count : ℕ
  is_colliding : Bool
  last_collision_time : ℚ
  cooldown : ℚ
deriving DecidableEq

/-- The field values `BuzzWireGame.reset` assigns (source lines 85-95). -/
def resetState : GameState :=
  { game_started := false
    game_completed := false
    timing_started := false
    start_time := none
    elapsed_time := 0
    collision_count := 0
    is_colliding := false
    last_collision_time := 0
    cooldown := 1/2 }

/-- `BuzzWireGame.reset` as a state transformer: it overwrites every session
field, ignoring the previous state. -/
def reset (_ : GameState) : GameState := resetState

/-- `BuzzWireGame.start_game` (source lines 97-103): `reset()`, then
`game_started = True`, `timing_started = False`, `start_time = None`. -/
def start_game (s : GameState) : GameState :=
  { reset s with
    game_started := true
    timing_started := false
    start_time := none }

/-- The dictionary returned by `BuzzWireGame.get_state` (source lines
282-301).  `distance_to_track : Option (Option ℚ)`: the outer `none` is the
`-1` sentinel (the `-1.0` default argument, "not computed"); `some md`
carries the `min_distance` argument, whose own `none` is `float('inf')`.
`elapsed_time` is rounded to 2 decimals as in the source; the `round(·, 4)`
on the square-rooted distance is omitted (squared representation). -/
structure Snapshot where
  game_started : Bool
  game_completed : Bool
  timing_started : Bool
  elapsed_time : ℚ
  collision_count : ℕ
  is_colliding : Bool
  distance_to_track : Option (Option ℚ)
  collision_threshold : ℚ
deriving DecidableEq

/-- Python's banker's rounding to an integer (`round` rounds halves to the
nearest even integer). -/
def roundHalfEven (q : ℚ) : ℤ :=
  let n := q.floor
  let r := q - n
  if r < 1/2 then n
  else if 1/2 < r then n + 1
  else if n % 2 = 0 then n else n + 1

/-- Python's `round(q, 2)` on exact rationals. -/
def round2 (q : ℚ) : ℚ := (roundHalfEven (q * 100) : ℚ) / 100

/-- `BuzzWireGame.get_state` (source lines 282-301). -/
def get_state (g : Game) (s : GameState) (distance : Option (Option ℚ)) :
    Snapshot :=
  { game_started := s.game_started
    game_completed := s.game_completed
    timing_started := s.timing_started
    elapsed_time := round2 s.elapsed_time
    collision_count := s.collision_count
    is_colliding := s.is_colliding
    distance_to_track := distance
    collision_threshold := g.collision_threshold }

/-- The elapsed time after source lines 147-148: `if self.start_time:
self.elapsed_time = time.time() - self.start_time`.  Python truthiness
makes both `None` and `0.0` skip the update, hence the extra `t0 = 0`
test. -/
def elapsedAfter (now : ℚ) (s : GameState) : ℚ :=
  match s.start_time with
  | none => s.elapsed_time
  | some t0 => if t0 = 0 then s.elapsed_time else now - t0

/-- Source lines 147-148 as a state transformer: only `elapsed_time`
changes. -/
def updateElapsed (now : ℚ) (s : GameState) : GameState :=
  { s with elapsed_time := elapsedAfter now s }

/-- The timing-phase body of `BuzzWireGame.update` (source lines 146-171):
elapsed-time refresh, multi-point minimum distance, collision flag and
debounced collision count, end-zone completion check.  `was_colliding` is
read after the elapsed-time update exactly as in the source (line 158). -/
def timingStep (g : Game) (now : ℚ) (positions : List Vec3)
    (s : GameState) : GameState :=
  let s1 := updateElapsed now s
  let min_distance := min_distance_over_points define_track positions
  let was_colliding := s1.is_colliding
  let col := min_lt_threshold min_distance g.collision_threshold
  let s2 := { s1 with is_colliding := col }
  let s3 :=
    if col && !was_colliding then
      if s2.cooldown < now - s2.last_collision_time then
        { s2 with collision_count := s2.collision_count + 1
                  last_collision_time := now }
      else s2
    else s2
  if is_in_zone (positions.headD origin) end_zone then
    { s3 with game_completed := true }
  else s3

/-- `BuzzWireGame.update` (source lines 105-172), returning the new state
together with the returned dictionary.  The input is the list of points
after the source's single-point normalisation; `positions.headD origin`
is `positions[0] if positions else [0, 0, 0]` (line 135). -/
def update (g : Game) (now : ℚ) (positions : List Vec3)
    (s : GameState) : GameState × Snapshot :=
  if !s.game_started || s.game_completed then
    (s, get_state g s none)
  else if !s.timing_started then
    let s2 :=
      if is_in_zone (positions.headD origin) start_zone then
        { s with timing_started := true, start_time := some now }
      else s
    (s2, get_state g s2 none)
  else
    let s4 := timingStep g now positions s
    (s4, get_state g s4 (some (min_distance_over_points define_track positions)))

/-- A sequence of `update` calls, each given its wall-clock time and its
input points. -/
def run (g : Game) : List (ℚ × List Vec3) → GameState → GameState
  | [], s => s
  | (now, ps) :: rest, s => run g rest (update g now ps s).1

/-- The session states reachable from a freshly constructed game
(the constructor calls `reset`, source line 39) by any sequence of
`reset`, `start_game` and `update` operations. -/
inductive Reachable : GameState → Prop
  | init : Reachable resetState
  | reset_op {s : GameState} : Reachable s → Reachable (reset s)
  | start_op {s : GameState} : Reachable s → Reachable (start_game s)
  | update_op {s : GameState} (g : Game) (now : ℚ) (ps : List Vec3) :
      Reachable s → Reachable (update g now ps s).1

/-! ## Helper lemmas: the three branches of `update` -/

/-- When the game is not started or already completed, `update` returns the
unchanged state and the default snapshot (source lines 126-127). -/
theorem update_not_running (g : Game) (now : ℚ) (ps : List Vec3)
    (s : GameState) (h : s.game_started = false ∨ s.game_completed = true) :
    update g now ps s = (s, get_state g s none) := by
  unfold update
  rcases h with h | h <;> simp [h]

/-- The arming branch of `update` (source lines 138-144). -/
theorem update_arming (g : Game) (now : ℚ) (ps : List Vec3) (s : GameState)
    (hs : s.game_started = true) (hc : s.game_completed = false)
    (ht : s.timing_started = false) :
    update g now ps s =
      (if is_in_zone (ps.headD origin) start_zone then
        ({ s with timing_started := true, start_time := some now },
          get_state g { s with timing_started := true, start_time := some now }
            none)
      else (s, get_state g s none)) := by
  unfold update
  simp only [hs, hc, ht, Bool.not_true, Bool.false_or, Bool.not_false,
    if_false, if_true, Bool.false_eq_true]
  split <;> simp

/-- The timing branch of `update` (source lines 146-172). -/
theorem update_timing (g : Game) (now : ℚ) (ps : List Vec3) (s : GameState)
    (hs : s.game_started = true) (hc : s.game_completed = false)
    (ht : s.timing_started = true) :
    update g now ps s =
      (timingStep g now ps s,
        get_state g (timingStep g now ps s)
          (some (min_distance_over_points define_track ps))) := by
  unfold update
  simp [hs, hc, ht]

/-- Field-by-field description of `timingStep`. -/
theorem timingStep_spec (g : Game) (now : ℚ) (ps : List Vec3)
    (s : GameState) :
    (timingStep g now ps s).game_started = s.game_started ∧
    (timingStep g now ps s).timing_started = s.timing_started ∧
    (timingStep g now ps s).start_time = s.start_time ∧
    (timingStep g now ps s).cooldown = s.cooldown ∧
    (timingStep g now ps s).elapsed_time = elapsedAfter now s ∧
    (timingStep g now ps s).is_colliding =
      min_lt_threshold (min_distance_over_points define_track ps)
        g.collision_threshold ∧
    (timingStep g now ps s).game_completed =
      (s.game_completed || is_in_zone (ps.headD origin) end_zone) ∧
    ((timingStep g now ps s).collision_count,
        (timingStep g now ps s).last_collision_time) =
      (if min_lt_threshold (min_distance_over_points define_track ps)
            g.collision_threshold = true ∧
          s.is_colliding = false ∧
          s.cooldown < now - s.last_collision_time
       then (s.collision_count + 1, now)
       else (s.collision_count, s.last_collision_time)) := by
  unfold timingStep
  simp only [updateElapsed]
  cases hcol : min_lt_threshold (min_distance_over_points define_track ps)
    g.collision_threshold
  all_goals cases hwas : s.is_colliding
  all_goals by_cases hcd : s.cooldown < now - s.last_collision_time
  all_goals cases hz : is_in_zone (ps.headD origin) end_zone
  all_goals simp [hcol, hwas, hcd, hz]

/-- A completed session absorbs any further sequence of `update` calls. -/
theorem run_completed_fixed (g : Game) (events : List (ℚ × List Vec3))
    (s : GameState) (h : s.game_completed = true) : run g events s = s := by
  induction events generalizing s with
  | nil => rfl
  | cons e rest ih =>
    obtain ⟨now, ps⟩ := e
    have hu := update_not_running g now ps s (Or.inr h)
    simp only [run, hu]
    exact ih s h

/-- A single `update` never decreases the collision count. -/
theorem update_count_mono (g : Game) (now : ℚ) (ps : List Vec3)
    (s : GameState) :
    s.collision_count ≤ (update g now ps s).1.collision_count := by
  by_cases hs : s.game_started = true
  · by_cases hc : s.game_completed = true
    · rw [update_not_running g now ps s (Or.inr hc)]
    · rw [Bool.not_eq_true] at hc
      by_cases ht : s.timing_started = true
      · rw [update_timing g now ps s hs hc ht]
        show s.collision_count ≤ (timingStep g now ps s).collision_count
        have h8 := (timingStep_spec g now ps s).2.2.2.2.2.2.2
        split at h8
        · rw [Prod.mk.injEq] at h8
          rw [h8.1]
          exact Nat.le_succ _
        · rw [Prod.mk.injEq] at h8
          rw [h8.1]
      · rw [Bool.not_eq_true] at ht
        rw [update_arming g now ps s hs hc ht]
        split <;> simp
  · rw [Bool.not_eq_true] at hs
    rw [update_not_running g now ps s (Or.inl hs)]

/-- Across any sequence of `update` calls the collision count is
non-decreasing. -/
theorem run_count_mono (g : Game) (events : List (ℚ × List Vec3))
    (s : GameState) :
    s.collision_count ≤ (run g events s).collision_count := by
  induction events generalizing s with
  | nil => exact le_refl _
  | cons e rest ih =>
    obtain ⟨now, ps⟩ := e
    simp only [run]
    exact le_trans (update_count_mono g now ps s) (ih _)

/-! ## The claims -/

/-- Claim C8: `start_game` produces the same fully reset state from every
prior session state (timer unset, counters zeroed, `game_started = true`),
and is idempotent. -/
theorem C8_start_game_full_reset (s : GameState) :
    start_game s =
      { game_started := true
        game_completed := false
        timing_started := false
        start_time := none
        elapsed_time := 0
        collision_count := 0
        is_colliding := false
        last_collision_time := 0
        cooldown := 1/2 } ∧
    start_game (start_game s) = start_game s :=
  ⟨rfl, rfl⟩

/-- Claim C3: when the game is not started or already completed, `update`
leaves the whole session state unchanged and returns the current snapshot
with the distance reported as the `-1` sentinel (`none`). -/
theorem C3_update_is_noop_when_not_running (g : Game) (now : ℚ)
    (ps : List Vec3) (s : GameState)
    (h : s.game_started = false ∨ s.game_completed = true) :
    (update g now ps s).1 = s ∧
    (update g now ps s).2 = get_state g s none ∧
    (get_state g s none).distance_to_track = none := by
  have hu := update_not_running g now ps s h
  exact ⟨by rw [hu], by rw [hu], rfl⟩

/-- Witness for C3 at a fresh (never started) state. -/
theorem C3_witness :
    (update ⟨1/20⟩ 3 [origin] resetState).1 = resetState ∧
    (update ⟨1/20⟩ 3 [origin] resetState).2 =
      get_state ⟨1/20⟩ resetState none ∧
    (get_state ⟨1/20⟩ resetState none).distance_to_track = none :=
  C3_update_is_noop_when_not_running ⟨1/20⟩ 3 [origin] resetState
    (Or.inl rfl)

/-- Claim C6: once `game_completed` is true, any further sequence of
`update` calls leaves the state — in particular `elapsed_time` — unchanged
(only `reset`/`start_game` replace it). -/
theorem C6_elapsed_frozen_after_completion (g : Game)
    (events : List (ℚ × List Vec3)) (s : GameState)
    (h : s.game_completed = true) :
    run g events s = s ∧ (run g events s).elapsed_time = s.elapsed_time := by
  have hr := run_completed_fixed g events s h
  exact ⟨hr, by rw [hr]⟩

/-- Witness for C6 at a concrete completed state and a nonempty event
list. -/
theorem C6_witness :
    run ⟨1/20⟩ [(9, [origin]), (11, [start_zone])]
        ⟨true, true, true, some 1, 7, 2, false, 1, 1/2⟩ =
      ⟨true, true, true, some 1, 7, 2, false, 1, 1/2⟩ ∧
    (run ⟨1/20⟩ [(9, [origin]), (11, [start_zone])]
        ⟨true, true, true, some 1, 7, 2, false, 1, 1/2⟩).elapsed_time =
      GameState.elapsed_time ⟨true, true, true, some 1, 7, 2, false, 1, 1/2⟩ :=
  C6_elapsed_frozen_after_completion ⟨1/20⟩ [(9, [origin]), (11, [start_zone])]
    ⟨true, true, true, some 1, 7, 2, false, 1, 1/2⟩ rfl

/-- Claim C4: in the arming phase only the primary point is tested against
the start zone; entering it sets `timing_started` and records the
timestamp, otherwise nothing changes; either way the snapshot reports no
distance; and once `timing_started` is true, a timing-phase `update` never
changes `timing_started` or `start_time` again, so the timer is set exactly
once per session. -/
theorem C4_arming_phase (g : Game) (now : ℚ) (ps : List Vec3)
    (s : GameState) (hs : s.game_started = true)
    (hc : s.game_completed = false) (ht : s.timing_started = false) :
    (is_in_zone (ps.headD origin) start_zone = true →
      (update g now ps s).1 =
        { s with timing_started := true, start_time := some now }) ∧
    (is_in_zone (ps.headD origin) start_zone = false →
      (update g now ps s).1 = s) ∧
    (update g now ps s).2.distance_to_track = none ∧
    (∀ s2 : GameState, s2.game_started = true → s2.game_completed = false →
      s2.timing_started = true →
      (update g now ps s2).1.timing_started = true ∧
      (update g now ps s2).1.start_time = s2.start_time) := by
  have hu := update_arming g now ps s hs hc ht
  refine ⟨fun hz => ?_, fun hz => ?_, ?_, fun s2 hs2 hc2 ht2 => ?_⟩
  · rw [hu, if_pos hz]
  · rw [hu, hz]
    simp
  · rw [hu]
    split <;> rfl
  · rw [update_timing g now ps s2 hs2 hc2 ht2]
    have h := timingStep_spec g now ps s2
    exact ⟨h.2.1.trans ht2, h.2.2.1⟩

/-- Witness for C4 at a freshly started game whose primary point is the
start-zone center. -/
theorem C4_witness :
    (is_in_zone ([start_zone].headD origin) start_zone = true →
      (update ⟨1/20⟩ 5 [start_zone] (start_game resetState)).1 =
        { start_game resetState with
            timing_started := true, start_time := some 5 }) ∧
    (is_in_zone ([start_zone].headD origin) start_zone = false →
      (update ⟨1/20⟩ 5 [start_zone] (start_game resetState)).1 =
        start_game resetState) ∧
    (update ⟨1/20⟩ 5 [start_zone] (start_game resetState)).2.distance_to_track
      = none ∧
    (∀ s2 : GameState, s2.game_started = true → s2.game_completed = false →
      s2.timing_started = true →
      (update ⟨1/20⟩ 5 [start_zone] s2).1.timing_started = true ∧
      (update ⟨1/20⟩ 5 [start_zone] s2).1.start_time = s2.start_time) :=
  C4_arming_phase ⟨1/20⟩ 5 [start_zone] (start_game resetState) rfl rfl rfl

/-- Claim C1: in the timing phase, `collision_count` increments by exactly
one precisely on a false→true transition of the collision flag that is more
than `cooldown` after the previous counted collision (the timestamp then
being set to `now`); in every other case both the count and the timestamp
are unchanged; and across any sequence of `update` calls the count is
non-decreasing. -/
theorem C1_collision_count_debounce (g : Game) (now : ℚ) (ps : List Vec3)
    (s : GameState) (hs : s.game_started = true)
    (hc : s.game_completed = false) (ht : s.timing_started = true) :
    ((min_lt_threshold (min_distance_over_points define_track ps)
          g.collision_threshold = true ∧
        s.is_colliding = false ∧
        s.cooldown < now - s.last_collision_time) →
      (update g now ps s).1.collision_count = s.collision_count + 1 ∧
      (update g now ps s).1.last_collision_time = now) ∧
    (¬ (min_lt_threshold (min_distance_over_points define_track ps)
          g.collision_threshold = true ∧
        s.is_colliding = false ∧
        s.cooldown < now - s.last_collision_time) →
      (update g now ps s).1.collision_count = s.collision_count ∧
      (update g now ps s).1.last_collision_time = s.last_collision_time) ∧
    (∀ (g2 : Game) (events : List (ℚ × List Vec3)) (s2 : GameState),
      s2.collision_count ≤ (run g2 events s2).collision_count) := by
  rw [update_timing g now ps s hs hc ht]
  refine ⟨fun hcond => ?_, fun hcond => ?_,
    fun g2 events s2 => run_count_mono g2 events s2⟩
  · have h8 := (timingStep_spec g now ps s).2.2.2.2.2.2.2
    rw [if_pos hcond, Prod.mk.injEq] at h8
    exact h8
  · have h8 := (timingStep_spec g now ps s).2.2.2.2.2.2.2
    rw [if_neg hcond, Prod.mk.injEq] at h8
    exact h8

/-- Witness for C1: a first touch of the track in the timing phase, well
past the cooldown, increments the count from 0 to 1 and stamps the time. -/
theorem C1_witness :
    (update ⟨1/20⟩ 5 [start_zone]
        ⟨true, false, true, some 1, 0, 0, false, 0, 1/2⟩).1.collision_count =
      GameState.collision_count ⟨true, false, true, some 1, 0, 0, false, 0, 1/2⟩
        + 1 ∧
    (update ⟨1/20⟩ 5 [start_zone]
        ⟨true, false, true, some 1, 0, 0, false, 0, 1/2⟩).1.last_collision_time
      = 5 :=
  (C1_collision_count_debounce ⟨1/20⟩ 5 [start_zone]
      ⟨true, false, true, some 1, 0, 0, false, 0, 1/2⟩ rfl rfl rfl).1
    (by refine ⟨by decide!, rfl, by norm_num⟩)

/-- Claim C10: an empty input list is handled without failure: the primary
point defaults to the origin for the zone tests, and in the timing phase the
minimum over zero points is `+∞` (`none`), so the collision flag is cleared
and the count is unchanged. -/
theorem C10_empty_positions (g : Game) (now : ℚ) (s : GameState)
    (hs : s.game_started = true) (hc : s.game_completed = false) :
    (s.timing_started = false →
      (update g now [] s).1 =
        (if is_in_zone origin start_zone then
          { s with timing_started := true, start_time := some now }
        else s)) ∧
    (s.timing_started = true →
      min_distance_over_points define_track [] = none ∧
      (update g now [] s).1.is_colliding = false ∧
      (update g now [] s).1.collision_count = s.collision_count) := by
  refine ⟨fun ht => ?_, fun ht => ?_⟩
  · have hu := update_arming g now [] s hs hc ht
    rw [show ([] : List Vec3).headD origin = origin from rfl] at hu
    rw [hu]
    by_cases hz : is_in_zone origin start_zone = true
    · simp [hz]
    · simp [hz]
  · rw [update_timing g now [] s hs hc ht]
    have h := timingStep_spec g now [] s
    have hcol : min_lt_threshold (min_distance_over_points define_track [])
        g.collision_threshold = false := rfl
    refine ⟨rfl, ?_, ?_⟩
    · exact h.2.2.2.2.2.1.trans hcol
    · have h8 := h.2.2.2.2.2.2.2
      have hno : ¬ (min_lt_threshold
            (min_distance_over_points define_track [])
            g.collision_threshold = true ∧ s.is_colliding = false ∧
          s.cooldown < now - s.last_collision_time) := by
        rintro ⟨habs, -⟩
        rw [hcol] at habs
        exact Bool.false_ne_true habs
      rw [if_neg hno, Prod.mk.injEq] at h8
      exact h8.1

/-- Witness for C10 at a concrete timing-phase state. -/
theorem C10_witness :
    ((GameState.timing_started ⟨true, false, true, some 1, 0, 0, false, 0, 1/2⟩
        = false →
      (update ⟨1/20⟩ 3 []
          ⟨true, false, true, some 1, 0, 0, false, 0, 1/2⟩).1 =
        (if is_in_zone origin start_zone then
          { (⟨true, false, true, some 1, 0, 0, false, 0, 1/2⟩ : GameState) with
              timing_started := true, start_time := some 3 }
        else ⟨true, false, true, some 1, 0, 0, false, 0, 1/2⟩)) ∧
    (GameState.timing_started ⟨true, false, true, some 1, 0, 0, false, 0, 1/2⟩
        = true →
      min_distance_over_points define_track [] = none ∧
      (update ⟨1/20⟩ 3 []
          ⟨true, false, true, some 1, 0, 0, false, 0, 1/2⟩).1.is_colliding =
        false ∧
      (update ⟨1/20⟩ 3 []
          ⟨true, false, true, some 1, 0, 0, false, 0, 1/2⟩).1.collision_count =
        GameState.collision_count
          ⟨true, false, true, some 1, 0, 0, false, 0, 1/2⟩)) :=
  C10_empty_positions ⟨1/20⟩ 3
    ⟨true, false, true, some 1, 0, 0, false, 0, 1/2⟩ rfl rfl

/-- One `update` step preserves the invariant
`completed → started ∧ timingStarted`. -/
theorem update_preserves_inv (g : Game) (now : ℚ) (ps : List Vec3)
    (s : GameState)
    (h : s.game_completed = true →
      s.game_started = true ∧ s.timing_started = true) :
    (update g now ps s).1.game_completed = true →
      (update g now ps s).1.game_started = true ∧
      (update g now ps s).1.timing_started = true := by
  by_cases hs : s.game_started = true
  · by_cases hc : s.game_completed = true
    · rw [update_not_running g now ps s (Or.inr hc)]
      exact h
    · rw [Bool.not_eq_true] at hc
      by_cases ht : s.timing_started = true
      · rw [update_timing g now ps s hs hc ht]
        intro _
        have hsp := timingStep_spec g now ps s
        constructor
        · show (timingStep g now ps s).game_started = true
          rw [hsp.1]
          exact hs
        · show (timingStep g now ps s).timing_started = true
          rw [hsp.2.1]
          exact ht
      · rw [Bool.not_eq_true] at ht
        rw [update_arming g now ps s hs hc ht]
        split
        · intro hcomp
          exact absurd hcomp (by simp [hc])
        · intro hcomp
          exact absurd hcomp (by simp [hc])
  · rw [Bool.not_eq_true] at hs
    rw [update_not_running g now ps s (Or.inl hs)]
    exact h

/-- Claim C7: `completed ⇒ started ∧ timingStarted` holds in every state
reachable from a fresh game by any sequence of `reset`, `start_game` and
`update` operations. -/
theorem C7_completed_implies_started_and_timing (s : GameState)
    (hr : Reachable s) (hc : s.game_completed = true) :
    s.game_started = true ∧ s.timing_started = true := by
  revert hc
  induction hr with
  | init =>
    intro hc
    simp [resetState] at hc
  | reset_op _ _ =>
    intro hc
    simp [reset, resetState] at hc
  | start_op _ _ =>
    intro hc
    simp [start_game, reset, resetState] at hc
  | update_op g now ps _ ih =>
    exact update_preserves_inv g now ps _ ih

/-- Witness for C7: a concrete completed session reached by starting, then
touching the start zone, then reaching the end zone. -/
theorem C7_witness :
    (update ⟨1/20⟩ 10 [end_zone]
        (update ⟨1/20⟩ 5 [start_zone] (start_game resetState)).1).1.game_started
      = true ∧
    (update ⟨1/20⟩ 10 [end_zone]
        (update ⟨1/20⟩ 5 [start_zone]
          (start_game resetState)).1).1.timing_started = true :=
  C7_completed_implies_started_and_timing _
    (Reachable.update_op ⟨1/20⟩ 10 [end_zone]
      (Reachable.update_op ⟨1/20⟩ 5 [start_zone]
        (Reachable.start_op Reachable.init)))
    (by decide!)

/-! ## The geometric primitive -/

/-- A sum of three squares of rationals vanishes iff each term does. -/
theorem sum_sq_eq_zero {x y z : ℚ} :
    x * x + y * y + z * z = 0 ↔ x = 0 ∧ y = 0 ∧ z = 0 := by
  constructor
  · intro h
    have hx : x * x = 0 := by
      nlinarith [mul_self_nonneg x, mul_self_nonneg y, mul_self_nonneg z]
    have hy : y * y = 0 := by
      nlinarith [mul_self_nonneg x, mul_self_nonneg y, mul_self_nonneg z]
    have hz : z * z = 0 := by
      nlinarith [mul_self_nonneg x, mul_self_nonneg y, mul_self_nonneg z]
    exact ⟨mul_self_eq_zero.mp hx, mul_self_eq_zero.mp hy,
      mul_self_eq_zero.mp hz⟩
  · rintro ⟨hx, hy, hz⟩
    simp [hx, hy, hz]

/-- Claim C2: the implemented point-to-segment distance agrees with the
specification's formula (degenerate guard `v·v < 1e-10` returning `|w|`,
otherwise the clamped projection), and on a degenerate segment `A = B` it
is the point-to-`A` Euclidean distance — all stated on squared
distances. -/
theorem C2_distance_matches_spec_formula :
    (∀ p a b : Vec3,
      point_to_segment_distance_sq p a b = spec_segment_distance_sq p a b) ∧
    (∀ p a : Vec3,
      point_to_segment_distance_sq p a a = vdot (vsub p a) (vsub p a)) := by
  constructor
  · intro p a b
    rfl
  · intro p a
    obtain ⟨px, py, pz⟩ := p
    obtain ⟨ax, ay, az⟩ := a
    simp only [point_to_segment_distance_sq, vdot, vsub]
    rw [if_pos (by norm_num)]

/-- Claim C9 as stated is false: `A ≠ B` does not put the code in the
non-degenerate branch.  With `A = (0,0,0)`, `B = (1e-6, 0, 0)` the squared
segment length is `1e-12 < 1e-10`, so the code returns `|P − A|`; at
`P = B`, a point on the segment (`t = 1`), the returned (squared) distance
is `1e-12 ≠ 0`. -/
theorem C9_counterexample :
    (⟨0, 0, 0⟩ : Vec3) ≠ ⟨1/1000000, 0, 0⟩ ∧
    (∃ t : ℚ, 0 ≤ t ∧ t ≤ 1 ∧
      (⟨1/1000000, 0, 0⟩ : Vec3) =
        vadd ⟨0, 0, 0⟩ (smul t (vsub ⟨1/1000000, 0, 0⟩ ⟨0, 0, 0⟩))) ∧
    point_to_segment_distance_sq ⟨1/1000000, 0, 0⟩ ⟨0, 0, 0⟩
      ⟨1/1000000, 0, 0⟩ ≠ 0 := by
  refine ⟨by decide!, ⟨1, by norm_num, le_refl 1, by decide!⟩, by decide!⟩

/-- Claim C9, amended: for every segment in the code's non-degenerate
regime (`v·v ≥ 1e-10` — not merely `A ≠ B`), the distance is zero iff `P`
lies on the segment. -/
theorem C9_amended_zero_iff_on_segment (p a b : Vec3)
    (h : ¬ vdot (vsub b a) (vsub b a) < 1 / 10 ^ 10) :
    point_to_segment_distance_sq p a b = 0 ↔
      ∃ t : ℚ, 0 ≤ t ∧ t ≤ 1 ∧ p = vadd a (smul t (vsub b a)) := by
  obtain ⟨px, py, pz⟩ := p
  obtain ⟨ax, ay, az⟩ := a
  obtain ⟨bx, bY, bz⟩ := b
  simp only [point_to_segment_distance_sq, vdot, vsub, vadd, smul,
    Vec3.mk.injEq] at h ⊢
  have hvv : (0:ℚ) <
      (bx - ax) * (bx - ax) + (bY - ay) * (bY - ay) + (bz - az) * (bz - az) := by
    push_neg at h
    calc (0:ℚ) < 1 / 10 ^ 10 := by norm_num
      _ ≤ _ := h
  rw [if_neg h]
  constructor
  · intro hd
    rw [sum_sq_eq_zero] at hd
    obtain ⟨h1, h2, h3⟩ := hd
    refine ⟨max 0 (min 1
        (((px - ax) * (bx - ax) + (py - ay) * (bY - ay) + (pz - az) * (bz - az))
          / ((bx - ax) * (bx - ax) + (bY - ay) * (bY - ay)
              + (bz - az) * (bz - az)))),
      le_max_left _ _,
      max_le (by norm_num) (min_le_left _ _), ?_, ?_, ?_⟩ <;> linarith
  · rintro ⟨t, ht0, ht1, e1, e2, e3⟩
    subst e1
    subst e2
    subst e3
    have hvvne : (bx - ax) * (bx - ax) + (bY - ay) * (bY - ay)
        + (bz - az) * (bz - az) ≠ 0 := ne_of_gt hvv
    have hwv : (ax + t * (bx - ax) - ax) * (bx - ax)
        + (ay + t * (bY - ay) - ay) * (bY - ay)
        + (az + t * (bz - az) - az) * (bz - az)
        = t * ((bx - ax) * (bx - ax) + (bY - ay) * (bY - ay)
            + (bz - az) * (bz - az)) := by ring
    rw [hwv, mul_div_assoc,
      div_self hvvne, mul_one, min_eq_right ht1, max_eq_right ht0]
    ring

/-- Witness for the amended C9 on the unit segment from the origin to
`(1,0,0)`, whose squared length 1 is above the degeneracy threshold. -/
theorem C9_witness :
    point_to_segment_distance_sq ⟨1/2, 0, 0⟩ ⟨0, 0, 0⟩ ⟨1, 0, 0⟩ = 0 ↔
      ∃ t : ℚ, 0 ≤ t ∧ t ≤ 1 ∧
        (⟨1/2, 0, 0⟩ : Vec3) =
          vadd ⟨0, 0, 0⟩ (smul t (vsub ⟨1, 0, 0⟩ ⟨0, 0, 0⟩)) :=
  C9_amended_zero_iff_on_segment ⟨1/2, 0, 0⟩ ⟨0, 0, 0⟩ ⟨1, 0, 0⟩ (by decide!)

/-! ## The multi-point minimum distance -/

/-- Unfolding lemma for `listMin` on a cons. -/
theorem listMin_cons (d : ℚ) (l : List ℚ) :
    listMin (d :: l) = optMin (some d) (listMin l) := by
  cases h : listMin l <;> simp [listMin, optMin, h]

/-- `optMin` is associative. -/
theorem optMin_assoc (a b c : Option ℚ) :
    optMin (optMin a b) c = optMin a (optMin b c) := by
  cases a <;> cases b <;> cases c <;> simp [optMin, min_assoc]

/-- `listMin` splits over append through `optMin`. -/
theorem listMin_append (l1 l2 : List ℚ) :
    listMin (l1 ++ l2) = optMin (listMin l1) (listMin l2) := by
  induction l1 with
  | nil => simp [listMin, optMin]
  | cons d l ih => simp [List.cons_append, listMin_cons, ih, optMin_assoc]

/-- `listMin` returns `none` exactly on the empty list. -/
theorem listMin_eq_none (l : List ℚ) : listMin l = none ↔ l = [] := by
  cases l with
  | nil => simp [listMin]
  | cons a l => rw [listMin_cons]; cases listMin l <;> simp [optMin]

/-- A nonempty list has a `listMin`. -/
theorem listMin_isSome (l : List ℚ) (h : l ≠ []) :
    ∃ d, listMin l = some d := by
  cases l with
  | nil => exact absurd rfl h
  | cons a l =>
    rw [listMin_cons]
    cases listMin l <;> exact ⟨_, rfl⟩

/-- `listMin` is an attained lower bound of the list. -/
theorem listMin_is_min (l : List ℚ) (d : ℚ) (h : listMin l = some d) :
    d ∈ l ∧ ∀ x ∈ l, d ≤ x := by
  induction l generalizing d with
  | nil => cases h
  | cons a l ih =>
    cases hl : listMin l with
    | none =>
      have hemp : l = [] := (listMin_eq_none l).mp hl
      subst hemp
      simp [listMin] at h
      subst h
      simp
    | some m =>
      rw [listMin_cons, hl] at h
      simp [optMin] at h
      subst h
      obtain ⟨hm, hle⟩ := ih m hl
      constructor
      · rcases le_total a m with hh | hh
        · rw [min_eq_left hh]
          exact List.mem_cons_self a l
        · rw [min_eq_right hh]
          exact List.mem_cons_of_mem a hm
      · intro x hx
        rcases List.mem_cons.mp hx with rfl | hx
        · exact min_le_left _ _
        · exact le_trans (min_le_right a m) (hle x hx)

/-- The two-level min fold of `update` equals the `listMin` of the flat
list of all point/segment distances. -/
theorem mdop_eq_listMin (track ps : List Vec3) :
    min_distance_over_points track ps = listMin (allSegDists track ps) := by
  induction ps with
  | nil => rfl
  | cons p rest ih =>
    simp [min_distance_over_points, allSegDists, listMin_append, ih,
      calculate_min_distance_to_track]

/-- Membership in the flat distance list. -/
theorem allSegDists_mem (track ps : List Vec3) (x : ℚ) :
    x ∈ allSegDists track ps ↔
      ∃ p ∈ ps, ∃ ab ∈ segs track,
        point_to_segment_distance_sq p ab.1 ab.2 = x := by
  induction ps with
  | nil => simp [allSegDists]
  | cons p rest ih => simp [allSegDists, ih]

/-- The fixed track has at least one segment. -/
theorem segs_track_ne_nil : segs define_track ≠ [] := by
  intro h
  have hlen : (segs define_track).length = 13 := rfl
  rw [h] at hlen
  cases hlen

/-- With a nonempty input, the flat distance list over the fixed track is
nonempty. -/
theorem allSegDists_ne_nil (ps : List Vec3) (hps : ps ≠ []) :
    allSegDists define_track ps ≠ [] := by
  cases ps with
  | nil => exact absurd rfl hps
  | cons p rest =>
    intro h
    unfold allSegDists at h
    rw [List.append_eq_nil] at h
    have hmap := h.1
    rw [List.map_eq_nil_iff] at hmap
    exact segs_track_ne_nil hmap

/-- Claim C5: in the timing phase with a nonempty input, the collision flag
is set exactly when the overall minimum — over all input points and all
consecutive-point track segments — of the point-to-segment distance is
below the threshold (on squares: `0 < thr ∧ d < thr²` represents
`sqrt d < thr`), and that overall minimum is the distance the snapshot
reports. -/
theorem C5_collision_flag_is_min_distance_test (g : Game) (now : ℚ)
    (ps : List Vec3) (s : GameState) (hs : s.game_started = true)
    (hc : s.game_completed = false) (ht : s.timing_started = true)
    (hne : ps ≠ []) :
    ∃ d : ℚ,
      min_distance_over_points define_track ps = some d ∧
      ((update g now ps s).1.is_colliding = true ↔
        0 < g.collision_threshold ∧ d < g.collision_threshold ^ 2) ∧
      (∃ p ∈ ps, ∃ ab ∈ segs define_track,
        d = point_to_segment_distance_sq p ab.1 ab.2) ∧
      (∀ p ∈ ps, ∀ ab ∈ segs define_track,
        d ≤ point_to_segment_distance_sq p ab.1 ab.2) ∧
      (update g now ps s).2.distance_to_track = some (some d) := by
  obtain ⟨d, hd⟩ := listMin_isSome _ (allSegDists_ne_nil ps hne)
  have hmd : min_distance_over_points define_track ps = some d := by
    rw [mdop_eq_listMin]
    exact hd
  obtain ⟨hmem, hlb⟩ := listMin_is_min _ _ hd
  rw [allSegDists_mem] at hmem
  obtain ⟨p, hp, ab, hab, heq⟩ := hmem
  have hu := update_timing g now ps s hs hc ht
  refine ⟨d, hmd, ?_, ⟨p, hp, ab, hab, heq.symm⟩, ?_, ?_⟩
  · rw [hu]
    show (timingStep g now ps s).is_colliding = true ↔ _
    rw [(timingStep_spec g now ps s).2.2.2.2.2.1, hmd]
    simp [min_lt_threshold]
  · intro q hq cd hcd
    exact hlb _ ((allSegDists_mem define_track ps _).mpr ⟨q, hq, cd, hcd, rfl⟩)
  · rw [hu]
    show some (min_distance_over_points define_track ps) = _
    rw [hmd]

/-- Witness for C5: a single point sitting on the first track vertex. -/
theorem C5_witness :
    ∃ d : ℚ,
      min_distance_over_points define_track [start_zone] = some d ∧
      ((update ⟨1/20⟩ 5 [start_zone]
          ⟨true, false, true, some 1, 0, 0, false, 0, 1/2⟩).1.is_colliding
          = true ↔
        0 < Game.collision_threshold ⟨1/20⟩ ∧
        d < Game.collision_threshold ⟨1/20⟩ ^ 2) ∧
      (∃ p ∈ [start_zone], ∃ ab ∈ segs define_track,
        d = point_to_segment_distance_sq p ab.1 ab.2) ∧
      (∀ p ∈ [start_zone], ∀ ab ∈ segs define_track,
        d ≤ point_to_segment_distance_sq p ab.1 ab.2) ∧
      (update ⟨1/20⟩ 5 [start_zone]
        ⟨true, false, true, some 1, 0, 0, false, 0, 1/2⟩).2.distance_to_track
        = some (some d) :=
  C5_collision_flag_is_min_distance_test ⟨1/20⟩ 5 [start_zone]
    ⟨true, false, true, some 1, 0, 0, false, 0, 1/2⟩ rfl rfl rfl
    (List.cons_ne_nil _ _)

end BuzzWire
